import Mathlib

/-!
Verification of the client feature aggregation and product selection logic of
`src/core/bank_product_analyzer.py` (class `BankProductAnalyzer`), shallowly
embedded in Lean.  Monetary quantities are modelled as rationals; a pandas
`NaN` cell (the result of failed numeric coercion) is modelled as `none` of an
`Option` type, matching the float-`NaN` comparison semantics used by the code
(`NaN < x`, `NaN > x` are both false, and `Series.mean` skips `NaN`).
Scores are integers, as every contribution in the source is an integer.
-/

namespace BankAnalyzer

/-! ### Lower-casing and substring search

Python's `str.lower()` is modelled for the alphabets that actually occur in
the analyzer's keyword lists: ASCII `A`-`Z` and Cyrillic `А`-`Я`/`Ё`.
`in` on Python strings is substring containment. -/

/-- Lower-case one character: ASCII `A`-`Z`, Cyrillic `А`-`Я` (U+0410-U+042F)
and `Ё` (U+0401), everything else unchanged. -/
def lowerChar (c : Char) : Char :=
  if 65 ≤ c.toNat ∧ c.toNat ≤ 90 then Char.ofNat (c.toNat + 32)
  else if 1040 ≤ c.toNat ∧ c.toNat ≤ 1071 then Char.ofNat (c.toNat + 32)
  else if c.toNat = 1025 then Char.ofNat 1105
  else c

/-- Model of `s.lower()`. -/
def lowerStr (s : String) : String := String.mk (s.toList.map lowerChar)

/-- `leadEq p l` is true when `p` is an initial segment of `l`. -/
def leadEq : List Char → List Char → Bool
  | [], _ => true
  | _ :: _, [] => false
  | a :: as, b :: bs => a == b && leadEq as bs

/-- `hasSub p l` is true when `p` occurs contiguously inside `l`. -/
def hasSub : List Char → List Char → Bool
  | p, [] => p.isEmpty
  | p, c :: cs => leadEq p (c :: cs) || hasSub p cs

/-- Model of Python's `kw in text` substring test on strings. -/
def containsKw (text kw : String) : Bool := hasSub kw.toList text.toList

/-! ### Keyword lists (verbatim from the source) -/

/-- Line 197: currency-related tokens counted in the description blob. -/
def currencyKeywords : List String := ["usd", "eur", "доллар", "евро", "fx_buy", "fx_sell"]

/-- Line 203: online-service tokens counted in the description blob. -/
def onlineKeywords : List String := ["онлайн", "online", "подписка", "subscription"]

/-- Line 233: `travel_keywords`. -/
def travelKeywords : List String :=
  ["такси", "taxi", "отель", "hotel", "путешествие", "travel", "авиабилет", "билет"]

/-- Line 247: `premium_keywords`. -/
def premiumKeywords : List String :=
  ["ресторан", "restaurant", "кафе", "cafe", "косметика", "cosmetics", "парфюм",
   "perfume", "ювелирные", "jewelry", "золото", "gold", "украшения"]

/-- Line 286: `currency_categories`. -/
def currencyCategories : List String := ["usd", "eur", "доллар", "евро", "валюта"]

/-! ### Data model -/

/-- One cleaned transaction row.  `amount`/`balance` are `none` when the
cleaning step coerced a malformed value to `NaN`. -/
structure Row where
  client : String
  amount : Option ℚ
  balance : Option ℚ
  category : String
  description : String
deriving DecidableEq, Repr

/-- The normalized transaction table.  The `has*` flags model
`col in client_data.columns`: when a flag is false the corresponding column is
absent and the row field is never consulted. -/
structure Table where
  rows : List Row
  hasAmount : Bool
  hasBalance : Bool
  hasCategory : Bool
  hasDescription : Bool
deriving DecidableEq, Repr

/-- The `analysis` dictionary built by `analyze_client_behavior`.
`avg_balance` is `Option ℚ` because `Series.mean()` yields `NaN` when the
balance column is present but the client has no valid balance value. -/
structure ClientFeatures where
  client_code : String
  total_transactions : Nat
  avg_balance : Option ℚ
  total_spending : ℚ
  categories : List (String × Nat)
  currency_operations : Nat
  online_services : Nat
  outflows_vs_inflows : ℚ
deriving DecidableEq, Repr

/-! ### Feature aggregation (`analyze_client_behavior`, lines 151-206) -/

/-- Lines 154-161: select the client's rows by exact string equality. -/
def clientRows (t : Table) (c : String) : List Row :=
  t.rows.filter (fun r => r.client == c)

/-- Boolean mask `client_data['amount'] < 0`; false on `NaN`. -/
def isNegAmount (r : Row) : Bool :=
  match r.amount with
  | some a => decide (a < 0)
  | none => false

/-- Boolean mask `client_data['amount'] > 0`; false on `NaN`. -/
def isPosAmount (r : Row) : Bool :=
  match r.amount with
  | some a => decide (0 < a)
  | none => false

/-- Absolute value of the (selected) amount cell. -/
def amountAbs (r : Row) : ℚ := |r.amount.getD 0|

/-- Value of the (selected) amount cell. -/
def amountVal (r : Row) : ℚ := r.amount.getD 0

/-- Line 184: `client_data[client_data['amount'] < 0]['amount'].abs().sum()`. -/
def clientSpending (rows : List Row) : ℚ := ((rows.filter isNegAmount).map amountAbs).sum

/-- Line 185: `client_data[client_data['amount'] > 0]['amount'].sum()`. -/
def clientIncome (rows : List Row) : ℚ := ((rows.filter isPosAmount).map amountVal).sum

/-- `Series.mean()` with pandas' default `skipna=True`: the mean of the valid
values, `NaN` (= `none`) when there is no valid value. -/
def skipnaMean (l : List (Option ℚ)) : Option ℚ :=
  if (l.filterMap id).length = 0 then none
  else some ((l.filterMap id).sum / ((l.filterMap id).length : ℚ))

/-- First-occurrence list of the distinct elements of `l`. -/
def uniq (l : List String) : List String :=
  l.foldl (fun acc c => if c ∈ acc then acc else acc ++ [c]) []

/-- Line 191: `value_counts().to_dict()` - occurrence count per distinct
category string.  (pandas orders the dict by descending count; every consumer
of this histogram in the analyzer is order-insensitive, so first-occurrence
order is used here.) -/
def histogram (l : List String) : List (String × Nat) :=
  (uniq l).map (fun c => (c, l.count c))

/-- Lines 196/202: `' '.join(client_data['description'].astype(str))`,
lower-cased once (the code lowers the blob at each membership test). -/
def descBlobOf (rows : List Row) : String :=
  lowerStr (String.intercalate (" ") (rows.map (fun r => r.description)))

/-- Lines 197-198 and 203-204: `sum(1 for word in kws if word in blob)`. -/
def kwCount (kws : List String) (blob : String) : Nat :=
  kws.countP (fun w => containsKw blob w)

/-- `analyze_client_behavior` (lines 151-206): returns `none` for the empty
dictionary `{}` produced when no row matches the client code. -/
def analyze_client_behavior (t : Table) (client_code : String) : Option ClientFeatures :=
  if (clientRows t client_code).length = 0 then none
  else some
    { client_code := client_code
      total_transactions := (clientRows t client_code).length
      avg_balance :=
        if t.hasBalance then skipnaMean ((clientRows t client_code).map Row.balance)
        else some 0
      total_spending :=
        if t.hasAmount then clientSpending (clientRows t client_code) else 0
      categories :=
        if t.hasCategory then histogram ((clientRows t client_code).map Row.category)
        else []
      currency_operations :=
        if t.hasDescription then kwCount currencyKeywords (descBlobOf (clientRows t client_code))
        else 0
      online_services :=
        if t.hasDescription then kwCount onlineKeywords (descBlobOf (clientRows t client_code))
        else 0
      outflows_vs_inflows :=
        if t.hasAmount then
          clientSpending (clientRows t client_code) / max (clientIncome (clientRows t client_code)) 1
        else 0 }

/-! ### Scoring (`determine_best_product`, lines 213-343) -/

/-- `avg_balance > threshold` with float semantics: false on `NaN`. -/
def balGt (bal : Option ℚ) (threshold : ℚ) : Prop :=
  match bal with
  | none => False
  | some x => threshold < x

instance (bal : Option ℚ) (threshold : ℚ) : Decidable (balGt bal threshold) :=
  match bal with
  | none => isFalse (fun h => h)
  | some x => inferInstanceAs (Decidable (threshold < x))

/-- `avg_balance < threshold` with float semantics: false on `NaN`. -/
def balLt (bal : Option ℚ) (threshold : ℚ) : Prop :=
  match bal with
  | none => False
  | some x => x < threshold

instance (bal : Option ℚ) (threshold : ℚ) : Decidable (balLt bal threshold) :=
  match bal with
  | none => isFalse (fun h => h)
  | some x => inferInstanceAs (Decidable (x < threshold))

/-- The category loops (lines 235-237, 255-257, 287-289): for every
`(category, count)` item whose lower-cased key contains one of the keywords,
add `mult * count`. -/
def catKeywordScore (cats : List (String × Nat)) (kws : List String) (mult : ℤ) : ℤ :=
  (cats.map (fun p => if kws.any (fun w => containsKw (lowerStr p.1) w) then mult * (p.2 : ℤ) else 0)).sum

/-- Lines 233-244: travel card. -/
def travelScore (f : ClientFeatures) : ℤ :=
  catKeywordScore f.categories travelKeywords 3
  + (if f.currency_operations > 0 then (f.currency_operations : ℤ) * 4 else 0)
  + (if f.currency_operations > 3 then 10 else 0)

/-- Lines 247-259: premium card. -/
def premiumScore (f : ClientFeatures) : ℤ :=
  (if balGt f.avg_balance 200000 then 15
   else if balGt f.avg_balance 100000 then 8 else 0)
  + catKeywordScore f.categories premiumKeywords 4

/-- Lines 262-276: credit card. -/
def creditScore (f : ClientFeatures) : ℤ :=
  (if f.online_services > 0 then (f.online_services : ℤ) * 3 else 0)
  + (if f.online_services > 5 then 8 else 0)
  + (if f.categories.length > 5 then 6
     else if f.categories.length > 3 then 3 else 0)
  + (if f.total_transactions > 100 then 5 else 0)

/-- Lines 279-291: currency exchange. -/
def currencyScore (f : ClientFeatures) : ℤ :=
  (if f.currency_operations > 5 then 15
   else if f.currency_operations > 2 then (f.currency_operations : ℤ) * 3 else 0)
  + catKeywordScore f.categories currencyCategories 2

/-- Lines 294-307: both deposit products (assigned the same value). -/
def depositsScore (f : ClientFeatures) : ℤ :=
  (if balGt f.avg_balance 100000 ∧ f.outflows_vs_inflows < 0.8 then 12
   else if balGt f.avg_balance 50000 ∧ f.outflows_vs_inflows < 1.0 then 8
   else if balGt f.avg_balance 30000 then 4 else 0)
  + (if f.total_transactions > 80 ∧ f.outflows_vs_inflows < 1.2 then 5 else 0)

/-- Lines 310-324: investments. -/
def investmentsScore (f : ClientFeatures) : ℤ :=
  (if balGt f.avg_balance 300000 then 15
   else if balGt f.avg_balance 150000 then 8 else 0)
  + (if balGt f.avg_balance 100000 ∧ f.outflows_vs_inflows < 0.6 then 10 else 0)
  + (if f.total_transactions > 100 ∧ f.outflows_vs_inflows < 1.0 then 5 else 0)

/-- Lines 327-343: cash loan. -/
def loanScore (f : ClientFeatures) : ℤ :=
  (if f.outflows_vs_inflows > 2.0 then 15
   else if f.outflows_vs_inflows > 1.5 then 10
   else if f.outflows_vs_inflows > 1.2 then 5 else 0)
  + (if f.total_transactions > 100 ∧ f.outflows_vs_inflows > 1.3 then 8 else 0)
  + (if balLt f.avg_balance 50000 ∧ f.outflows_vs_inflows > 1.5 then 6 else 0)

/-- The fixed product catalog in declaration (dict insertion) order,
lines 213-222. -/
def catalog : List String :=
  ["Карта для путешествий", "Премиальная карта", "Кредитная карта", "Обмен валют",
   "Депозит накопительный", "Депозит сберегательный", "Инвестиции", "Кредит наличными"]

/-- The `scores` dictionary as an association list in insertion order. -/
def scoreList (f : ClientFeatures) : List (String × ℤ) :=
  [("Карта для путешествий", travelScore f),
   ("Премиальная карта", premiumScore f),
   ("Кредитная карта", creditScore f),
   ("Обмен валют", currencyScore f),
   ("Депозит накопительный", depositsScore f),
   ("Депозит сберегательный", depositsScore f),
   ("Инвестиции", investmentsScore f),
   ("Кредит наличными", loanScore f)]

/-! ### Selection policy (`determine_best_product`, lines 208-363) -/

/-- One step of Python's `max(..., key=...)`: the running maximum is replaced
only on a strictly greater key, so the first maximal element wins. -/
def firstMax (m : String × ℤ) : List (String × ℤ) → String × ℤ
  | [] => m
  | x :: xs => firstMax (if m.2 < x.2 then x else m) xs

/-- `max(scores, key=scores.get)` paired with its score (line 346-347). -/
def pyMax : List (String × ℤ) → String × ℤ
  | [] => ("", 0)
  | x :: xs => firstMax x xs

/-- Insert before the first element with a smaller-or-equal score.  Folding
this over the list from the right reproduces Python's stable
`sorted(..., key=lambda x: x[1], reverse=True)`. -/
def insertGe (x : String × ℤ) : List (String × ℤ) → List (String × ℤ)
  | [] => [x]
  | y :: ys => if y.2 ≤ x.2 then x :: y :: ys else y :: insertGe x ys

/-- Line 354: the descending, stable ranking `sorted_scores`. -/
def sortDesc (l : List (String × ℤ)) : List (String × ℤ) := l.foldr insertGe []

/-- The fixed default shortlist returned on lines 211 and 351. -/
def defaultShortlist : List String :=
  ["Депозит накопительный", "Депозит сберегательный", "Инвестиции", "Кредитная карта"]

/-- `determine_best_product` (lines 208-363).  The extra parameter `r` is the
value drawn by `random.random()`; the draw happens only when the near-tie
test on line 355 succeeds, so on every other path the result does not depend
on `r`. -/
def determine_best_product (analysis : Option ClientFeatures) (r : ℚ) : String × List String :=
  match analysis with
  | none => ("Депозит накопительный", defaultShortlist)
  | some f =>
    if (pyMax (scoreList f)).2 < 2 then
      ("Депозит накопительный", defaultShortlist)
    else
      (if 1 < (sortDesc (scoreList f)).length ∧
          ((sortDesc (scoreList f)).getD 0 ("", 0)).2
            - ((sortDesc (scoreList f)).getD 1 ("", 0)).2 < 3 ∧
          r < 0.3
       then ((sortDesc (scoreList f)).getD 1 ("", 0)).1
       else (pyMax (scoreList f)).1,
       ((sortDesc (scoreList f)).take 4).map Prod.fst)

/-- The strict "rank better" order on score entries: a strictly larger score,
or an equal score and an earlier position in the catalog. -/
def catIdxFrom : Nat → List String → String → Nat
  | n, [], _ => n
  | n, x :: xs, p => if p == x then n else catIdxFrom (n + 1) xs p

/-- Position of a product in the catalog's declaration order. -/
def catIdx (p : String) : Nat := catIdxFrom 0 catalog p

/-- `Rk a b`: `a` is ranked strictly before `b` (higher score, or equal score
and earlier catalog declaration). -/
def Rk (a b : String × ℤ) : Prop :=
  b.2 < a.2 ∨ (a.2 = b.2 ∧ catIdx a.1 < catIdx b.1)

instance (a b : String × ℤ) : Decidable (Rk a b) :=
  inferInstanceAs (Decidable (_ ∨ _))


/-- The mean described by the spec: "arithmetic mean of the balance column
restricted to the client's rows", taken over the valid values only, so the
denominator is the number of valid values; undefined (`none`) when no valid
value exists. -/
def specMean (l : List ℚ) : Option ℚ :=
  if l = [] then none else some (l.sum / (l.length : ℚ))

/-- The counting rule described by the spec: how many keywords of the fixed
list occur as a substring of the blob, each keyword contributing at most 1. -/
def specPresenceCount (kws : List String) (blob : String) : Nat :=
  (kws.filter (fun w => containsKw blob w)).length

/-! ### Concrete fixtures used to exercise the theorems -/

/-- A features record whose only signal is a deposit-tier balance: both
deposit products score 8, everything else 0. -/
def featDeposit : ClientFeatures :=
  { client_code := "w1", total_transactions := 1, avg_balance := some 60000,
    total_spending := 0, categories := [], currency_operations := 0,
    online_services := 0, outflows_vs_inflows := 0 }

/-- A features record with outflow-to-inflow ratio 2.5 and no other signal. -/
def featLoan : ClientFeatures :=
  { client_code := "w2", total_transactions := 50, avg_balance := some 60000,
    total_spending := 5, categories := [], currency_operations := 0,
    online_services := 0, outflows_vs_inflows := 2.5 }

/-- A single transaction row: an outflow of 7 with no inflow. -/
def rowA : Row :=
  { client := "c1", amount := some (-7), balance := some 100,
    category := "такси", description := "online подписка" }

/-- A one-row table with every optional column present. -/
def tblA : Table :=
  { rows := [rowA], hasAmount := true, hasBalance := true,
    hasCategory := true, hasDescription := true }

/-- The features the aggregator derives from `tblA` for client `c1`. -/
def featA : ClientFeatures :=
  { client_code := "c1", total_transactions := 1, avg_balance := some 100,
    total_spending := 7, categories := [("такси", 1)], currency_operations := 0,
    online_services := 2, outflows_vs_inflows := 7 }

/-- A row with a malformed (`NaN`) balance. -/
def rowB1 : Row :=
  { client := "c2", amount := some (-4), balance := none,
    category := "x", description := "" }

/-- A row with a malformed (`NaN`) amount. -/
def rowB2 : Row :=
  { client := "c2", amount := none, balance := some 10,
    category := "x", description := "" }

/-- A fully valid inflow row. -/
def rowB3 : Row :=
  { client := "c2", amount := some 2, balance := some 20,
    category := "x", description := "" }

/-- A three-row table containing one malformed amount and one malformed
balance for client `c2`. -/
def tblB : Table :=
  { rows := [rowB1, rowB2, rowB3], hasAmount := true, hasBalance := true,
    hasCategory := true, hasDescription := true }

/-- The features the aggregator derives from `tblB` for client `c2`: the
`NaN` cells are skipped, so the mean balance is (10+20)/2 = 15 and the
ratio is 4/2 = 2. -/
def featB : ClientFeatures :=
  { client_code := "c2", total_transactions := 3, avg_balance := some 15,
    total_spending := 4, categories := [("x", 3)], currency_operations := 0,
    online_services := 0, outflows_vs_inflows := 2 }

/-! ### Lemmas about the selection machinery -/

lemma insertGe_perm (x : String × ℤ) (l : List (String × ℤ)) :
    (insertGe x l).Perm (x :: l) := by
  induction l with
  | nil => exact List.Perm.refl _
  | cons y ys ih =>
    simp only [insertGe]
    by_cases hc : y.2 ≤ x.2
    · rw [if_pos hc]
    · rw [if_neg hc]
      exact (ih.cons y).trans (List.Perm.swap x y ys)

lemma sortDesc_perm (l : List (String × ℤ)) : (sortDesc l).Perm l := by
  induction l with
  | nil => exact List.Perm.refl _
  | cons x xs ih => exact (insertGe_perm x (sortDesc xs)).trans (ih.cons x)

lemma insertGe_ne_nil (x : String × ℤ) (l : List (String × ℤ)) : insertGe x l ≠ [] := by
  cases l with
  | nil => simp [insertGe]
  | cons y ys =>
    simp only [insertGe]
    by_cases hc : y.2 ≤ x.2
    · rw [if_pos hc]; simp
    · rw [if_neg hc]; simp

lemma sortDesc_ne_nil (l : List (String × ℤ)) (h : l ≠ []) : sortDesc l ≠ [] := by
  cases l with
  | nil => exact absurd rfl h
  | cons x xs => exact insertGe_ne_nil x (sortDesc xs)

lemma firstMax_ge_seed (l : List (String × ℤ)) : ∀ m : String × ℤ, m.2 ≤ (firstMax m l).2 := by
  induction l with
  | nil => intro m; exact le_refl _
  | cons x xs ih =>
    intro m
    show m.2 ≤ (firstMax (if m.2 < x.2 then x else m) xs).2
    by_cases hc : m.2 < x.2
    · rw [if_pos hc]
      exact hc.le.trans (ih x)
    · rw [if_neg hc]
      exact ih m

lemma firstMax_ge (l : List (String × ℤ)) :
    ∀ m p : String × ℤ, p ∈ m :: l → p.2 ≤ (firstMax m l).2 := by
  induction l with
  | nil =>
    intro m p hp
    rw [List.mem_singleton] at hp
    rw [hp]
    exact le_refl _
  | cons x xs ih =>
    intro m p hp
    show p.2 ≤ (firstMax (if m.2 < x.2 then x else m) xs).2
    rcases List.mem_cons.mp hp with rfl | hp'
    · have h1 : p.2 ≤ (if p.2 < x.2 then x else p).2 := by
        by_cases hc : p.2 < x.2
        · rw [if_pos hc]; exact hc.le
        · rw [if_neg hc]
      exact h1.trans (firstMax_ge_seed xs _)
    rcases List.mem_cons.mp hp' with rfl | hp''
    · have h1 : p.2 ≤ (if m.2 < p.2 then p else m).2 := by
        by_cases hc : m.2 < p.2
        · rw [if_pos hc]
        · rw [if_neg hc]; omega
      exact h1.trans (firstMax_ge_seed xs _)
    · exact ih _ p (List.mem_cons_of_mem _ hp'')

lemma firstMax_mem (l : List (String × ℤ)) :
    ∀ m : String × ℤ, firstMax m l ∈ m :: l := by
  induction l with
  | nil => intro m; simp [firstMax]
  | cons x xs ih =>
    intro m
    show firstMax (if m.2 < x.2 then x else m) xs ∈ m :: x :: xs
    rcases List.mem_cons.mp (ih (if m.2 < x.2 then x else m)) with h1 | h1
    · rw [h1]
      by_cases hc : m.2 < x.2
      · rw [if_pos hc]; exact List.mem_cons_of_mem _ (List.mem_cons_self _ _)
      · rw [if_neg hc]; exact List.mem_cons_self _ _
    · exact List.mem_cons_of_mem _ (List.mem_cons_of_mem _ h1)

lemma firstMax_absorb (l : List (String × ℤ)) :
    ∀ x y : String × ℤ, y.2 ≤ x.2 →
      firstMax x l = if (firstMax y l).2 ≤ x.2 then x else firstMax y l := by
  induction l with
  | nil =>
    intro x y h
    simp only [firstMax]
    rw [if_pos h]
  | cons z zs ih =>
    intro x y h
    show firstMax (if x.2 < z.2 then z else x) zs =
      if (firstMax (if y.2 < z.2 then z else y) zs).2 ≤ x.2 then x
      else firstMax (if y.2 < z.2 then z else y) zs
    by_cases hxz : x.2 < z.2
    · rw [if_pos hxz, if_pos (by omega : y.2 < z.2)]
      have hz := firstMax_ge_seed zs z
      rw [if_neg (by omega)]
    · rw [if_neg hxz]
      by_cases hyz : y.2 < z.2
      · rw [if_pos hyz]
        exact ih x z (by omega)
      · rw [if_neg hyz]
        exact ih x y h

lemma head_sortDesc (d : String × ℤ) :
    ∀ (xs : List (String × ℤ)) (x : String × ℤ),
      (sortDesc (x :: xs)).headD d = firstMax x xs := by
  intro xs
  induction xs with
  | nil => intro x; rfl
  | cons y ys ih =>
    intro x
    have hne : sortDesc (y :: ys) ≠ [] := sortDesc_ne_nil _ (by simp)
    obtain ⟨h, t, hht⟩ := List.exists_cons_of_ne_nil hne
    have hh : h = firstMax y ys := by
      have h0 := ih y
      rw [hht] at h0
      simpa using h0
    show ((insertGe x (sortDesc (y :: ys))).headD d) = firstMax x (y :: ys)
    rw [hht]
    have habs : firstMax x (y :: ys) = if (firstMax y ys).2 ≤ x.2 then x else firstMax y ys := by
      show firstMax (if x.2 < y.2 then y else x) ys = _
      by_cases hxy : x.2 < y.2
      · rw [if_pos hxy]
        have hy := firstMax_ge_seed ys y
        rw [if_neg (by omega)]
      · rw [if_neg hxy]
        exact firstMax_absorb ys x y (by omega)
    rw [habs, ← hh]
    simp only [insertGe]
    by_cases hc : h.2 ≤ x.2
    · rw [if_pos hc, if_pos hc]
      rfl
    · rw [if_neg hc, if_neg hc]
      rfl

lemma getD_zero_eq_headD (l : List (String × ℤ)) (d : String × ℤ) :
    l.getD 0 d = l.headD d := by
  cases l with
  | nil => rfl
  | cons x xs => rfl

lemma scoreList_ne_nil (f : ClientFeatures) : scoreList f ≠ [] := by
  simp [scoreList]

lemma pyMax_mem (l : List (String × ℤ)) (h : l ≠ []) : pyMax l ∈ l := by
  cases l with
  | nil => exact absurd rfl h
  | cons x xs => exact firstMax_mem xs x

lemma pyMax_ge (l : List (String × ℤ)) (h : l ≠ []) : ∀ p ∈ l, p.2 ≤ (pyMax l).2 := by
  cases l with
  | nil => exact absurd rfl h
  | cons x xs => exact fun p hp => firstMax_ge xs x p hp

lemma pyMax_eq_head (l : List (String × ℤ)) (h : l ≠ []) (d : String × ℤ) :
    pyMax l = (sortDesc l).getD 0 d := by
  cases l with
  | nil => exact absurd rfl h
  | cons x xs =>
    rw [getD_zero_eq_headD]
    exact (head_sortDesc d xs x).symm

lemma pairwise_insertGe (x : String × ℤ) (l : List (String × ℤ))
    (hl : l.Pairwise Rk) (hx : ∀ y ∈ l, catIdx x.1 < catIdx y.1) :
    (insertGe x l).Pairwise Rk := by
  induction l with
  | nil => simp [insertGe]
  | cons y ys ih =>
    rw [List.pairwise_cons] at hl
    obtain ⟨hy, hys⟩ := hl
    simp only [insertGe]
    by_cases hc : y.2 ≤ x.2
    · rw [if_pos hc]
      rw [List.pairwise_cons]
      refine ⟨?_, List.pairwise_cons.mpr ⟨hy, hys⟩⟩
      intro z hz
      rcases List.mem_cons.mp hz with rfl | hz'
      · have hidx := hx z (List.mem_cons_self _ _)
        unfold Rk
        omega
      · have hRyz := hy z hz'
        have hidx := hx z (List.mem_cons_of_mem _ hz')
        unfold Rk at hRyz ⊢
        omega
    · rw [if_neg hc]
      rw [List.pairwise_cons]
      constructor
      · intro z hz
        have hz' : z = x ∨ z ∈ ys := by
          have hm := (insertGe_perm x ys).mem_iff.mp hz
          simpa using hm
        rcases hz' with rfl | hz'
        · unfold Rk
          omega
        · exact hy z hz'
      · exact ih hys (fun y hy' => hx y (List.mem_cons_of_mem _ hy'))

lemma pairwise_sortDesc (l : List (String × ℤ))
    (h : l.Pairwise fun a b => catIdx a.1 < catIdx b.1) :
    (sortDesc l).Pairwise Rk := by
  induction l with
  | nil => simp [sortDesc]
  | cons x xs ih =>
    rw [List.pairwise_cons] at h
    obtain ⟨hx, hxs⟩ := h
    show (insertGe x (sortDesc xs)).Pairwise Rk
    exact pairwise_insertGe x (sortDesc xs) (ih hxs)
      (fun y hy => hx y ((sortDesc_perm xs).mem_iff.mp hy))

lemma scoreList_map_fst (f : ClientFeatures) : (scoreList f).map Prod.fst = catalog := rfl

lemma scoreList_idx_pairwise (f : ClientFeatures) :
    (scoreList f).Pairwise fun a b => catIdx a.1 < catIdx b.1 := by
  have h : ((scoreList f).map fun b => catIdx b.1).Pairwise fun a b => a < b := by
    change List.Pairwise _
      [catIdx ("Карта для путешествий"), catIdx ("Премиальная карта"),
       catIdx ("Кредитная карта"), catIdx ("Обмен валют"),
       catIdx ("Депозит накопительный"), catIdx ("Депозит сберегательный"),
       catIdx ("Инвестиции"), catIdx ("Кредит наличными")]
    decide
  exact List.pairwise_map.mp h

lemma exists_four_of_len {α : Type} (l : List α) (h : 4 ≤ l.length) :
    ∃ a b c d t, l = a :: b :: c :: d :: t := by
  rcases l with _ | ⟨a, _ | ⟨b, _ | ⟨c, _ | ⟨d, t⟩⟩⟩⟩ <;> simp at h
  exact ⟨a, b, c, d, t, rfl⟩

/-! ### Lemmas about the feature aggregation -/

lemma analyze_some (t : Table) (c : String) (f : ClientFeatures)
    (h : analyze_client_behavior t c = some f) :
    (clientRows t c).length ≠ 0 ∧
    f.total_transactions = (clientRows t c).length ∧
    f.avg_balance
      = (if t.hasBalance then skipnaMean ((clientRows t c).map Row.balance) else some 0) ∧
    f.total_spending = (if t.hasAmount then clientSpending (clientRows t c) else 0) ∧
    f.categories
      = (if t.hasCategory then histogram ((clientRows t c).map Row.category) else []) ∧
    f.currency_operations
      = (if t.hasDescription then kwCount currencyKeywords (descBlobOf (clientRows t c)) else 0) ∧
    f.online_services
      = (if t.hasDescription then kwCount onlineKeywords (descBlobOf (clientRows t c)) else 0) ∧
    f.outflows_vs_inflows
      = (if t.hasAmount then
          clientSpending (clientRows t c) / max (clientIncome (clientRows t c)) 1
         else 0) := by
  unfold analyze_client_behavior at h
  by_cases h0 : (clientRows t c).length = 0
  · rw [if_pos h0] at h
    exact absurd h (by simp)
  · rw [if_neg h0] at h
    have h1 := Option.some.inj h
    rw [← h1]
    exact ⟨h0, rfl, rfl, rfl, rfl, rfl, rfl, rfl⟩

lemma clientSpending_eq (rows : List Row) :
    clientSpending rows =
      (((rows.filterMap Row.amount).filter (fun a => decide (a < 0))).map (fun a => |a|)).sum := by
  induction rows with
  | nil => rfl
  | cons r rs ih =>
    cases hr : r.amount with
    | none =>
      have hneg : isNegAmount r = false := by unfold isNegAmount; rw [hr]
      simp only [clientSpending, List.filter_cons, hneg, List.filterMap_cons, hr] at ih ⊢
      exact ih
    | some a =>
      have hneg : isNegAmount r = decide (a < 0) := by unfold isNegAmount; rw [hr]
      have habs : amountAbs r = |a| := by unfold amountAbs; rw [hr]; rfl
      by_cases hva : a < 0
      · simp only [clientSpending, List.filter_cons, hneg, List.filterMap_cons, hr,
          decide_eq_true hva, ite_true, List.map_cons, List.sum_cons, habs] at ih ⊢
        rw [ih]
      · simp only [clientSpending, List.filter_cons, hneg, List.filterMap_cons, hr,
          decide_eq_false hva, ite_false, List.map_cons, List.sum_cons] at ih ⊢
        exact ih

lemma clientIncome_eq (rows : List Row) :
    clientIncome rows =
      (((rows.filterMap Row.amount).filter (fun a => decide (0 < a))).sum) := by
  induction rows with
  | nil => rfl
  | cons r rs ih =>
    cases hr : r.amount with
    | none =>
      have hpos : isPosAmount r = false := by unfold isPosAmount; rw [hr]
      simp only [clientIncome, List.filter_cons, hpos, List.filterMap_cons, hr] at ih ⊢
      exact ih
    | some a =>
      have hpos : isPosAmount r = decide (0 < a) := by unfold isPosAmount; rw [hr]
      have hval : amountVal r = a := by unfold amountVal; rw [hr]; rfl
      by_cases hva : 0 < a
      · simp only [clientIncome, List.filter_cons, hpos, List.filterMap_cons, hr,
          decide_eq_true hva, ite_true, List.map_cons, List.sum_cons, hval] at ih ⊢
        rw [ih]
      · simp only [clientIncome, List.filter_cons, hpos, List.filterMap_cons, hr,
          decide_eq_false hva, ite_false, List.map_cons, List.sum_cons] at ih ⊢
        exact ih

lemma clientSpending_nonneg (rows : List Row) : 0 ≤ clientSpending rows := by
  apply List.sum_nonneg
  intro x hx
  obtain ⟨r, _, rfl⟩ := List.mem_map.mp hx
  exact abs_nonneg _

lemma skipnaMean_eq_specMean (rows : List Row) :
    skipnaMean (rows.map Row.balance) = specMean (rows.filterMap Row.balance) := by
  unfold skipnaMean specMean
  have hfm : (rows.map Row.balance).filterMap id = rows.filterMap Row.balance := by
    rw [List.filterMap_map]
    rfl
  rw [hfm]
  by_cases hnil : rows.filterMap Row.balance = []
  · rw [if_pos (by rw [hnil]; rfl), if_pos hnil]
  · rw [if_neg (fun hz => hnil (List.length_eq_zero.mp hz)), if_neg hnil]

lemma kwCount_eq_specPresenceCount (kws : List String) (blob : String) :
    kwCount kws blob = specPresenceCount kws blob := by
  unfold kwCount specPresenceCount
  exact List.countP_eq_length_filter _ _

lemma fst_mem_catalog (f : ClientFeatures) (p : String × ℤ) (hp : p ∈ scoreList f) :
    p.1 ∈ catalog := by
  have h := List.mem_map_of_mem Prod.fst hp
  rw [scoreList_map_fst] at h
  exact h

/-! ### Claim theorems -/

lemma sortDesc_scoreList_length (f : ClientFeatures) :
    (sortDesc (scoreList f)).length = 8 := by
  rw [(sortDesc_perm (scoreList f)).length_eq]
  rfl

/-- C1: for an empty features record, or one whose maximum score over the
8 catalog products is strictly below 2, `determine_best_product` returns the
default deposit winner together with the fixed 4-item shortlist, for every
value of the random draw (so the randomized near-tie path is never taken). -/
theorem claim_C1 (a : Option ClientFeatures) (r : ℚ)
    (h : a = none ∨ ∃ f, a = some f ∧ ∀ p ∈ scoreList f, p.2 < 2) :
    determine_best_product a r =
      ("Депозит накопительный",
       ["Депозит накопительный", "Депозит сберегательный", "Инвестиции", "Кредитная карта"]) := by
  rcases h with rfl | ⟨f, rfl, hlt⟩
  · rfl
  · simp only [determine_best_product]
    rw [if_pos (hlt _ (pyMax_mem _ (scoreList_ne_nil f)))]
    rfl

/-- C2: for a non-empty features record with maximum score at least 2 and a
gap below 3 between the two top-ranked scores, the winner is the second-ranked
product exactly when the draw is below 0.3 and the top-ranked product
otherwise, and the shortlist is always the first 4 entries of the pre-override
ranking. -/
theorem claim_C2 (f : ClientFeatures) (r : ℚ)
    (hmax : ∃ p ∈ scoreList f, 2 ≤ p.2)
    (hgap : ((sortDesc (scoreList f)).getD 0 ("", 0)).2
        - ((sortDesc (scoreList f)).getD 1 ("", 0)).2 < 3) :
    determine_best_product (some f) r =
      ((if r < 0.3 then ((sortDesc (scoreList f)).getD 1 ("", 0)).1
        else ((sortDesc (scoreList f)).getD 0 ("", 0)).1),
       ((sortDesc (scoreList f)).take 4).map Prod.fst) := by
  obtain ⟨p, hp, hp2⟩ := hmax
  have h2 : ¬ (pyMax (scoreList f)).2 < 2 := by
    have h3 := pyMax_ge (scoreList f) (scoreList_ne_nil f) p hp
    omega
  have hlen : 1 < (sortDesc (scoreList f)).length := by
    rw [sortDesc_scoreList_length]
    omega
  simp only [determine_best_product]
  rw [if_neg h2]
  by_cases hr : r < 0.3
  · rw [if_pos ⟨hlen, hgap, hr⟩, if_pos hr]
  · rw [if_neg (fun hcon => hr hcon.2.2), if_neg hr,
      pyMax_eq_head (scoreList f) (scoreList_ne_nil f) ("", 0)]

/-- C3: for a non-empty features record with maximum score at least 2, the
ranking is a permutation of the 8 scored catalog products, it is sorted
descending by score with ties broken by catalog declaration order (the strict
order `Rk`), the pre-override winner `max(scores)` is its first entry, and the
returned shortlist is exactly its first 4 entries. -/
theorem claim_C3 (f : ClientFeatures) (r : ℚ) (hmax : ∃ p ∈ scoreList f, 2 ≤ p.2) :
    (sortDesc (scoreList f)).Perm (scoreList f)
    ∧ (sortDesc (scoreList f)).Pairwise Rk
    ∧ (sortDesc (scoreList f)).getD 0 ("", 0) = pyMax (scoreList f)
    ∧ (determine_best_product (some f) r).2 = ((sortDesc (scoreList f)).take 4).map Prod.fst := by
  obtain ⟨p, hp, hp2⟩ := hmax
  have h2 : ¬ (pyMax (scoreList f)).2 < 2 := by
    have h3 := pyMax_ge (scoreList f) (scoreList_ne_nil f) p hp
    omega
  refine ⟨sortDesc_perm _, pairwise_sortDesc _ (scoreList_idx_pairwise f),
    (pyMax_eq_head _ (scoreList_ne_nil f) _).symm, ?_⟩
  simp only [determine_best_product]
  rw [if_neg h2]

/-- C9: on every input and every random draw, the returned shortlist has
exactly 4 entries, each entry is a catalog product, and the winner is one of
the 4 shortlist entries - on the default path, the low-confidence path, and
both branches of the near-tie override. -/
theorem claim_C9 (a : Option ClientFeatures) (r : ℚ) :
    (determine_best_product a r).2.length = 4
    ∧ (determine_best_product a r).1 ∈ (determine_best_product a r).2
    ∧ ∀ p ∈ (determine_best_product a r).2, p ∈ catalog := by
  cases a with
  | none =>
    refine ⟨rfl, ?_, ?_⟩
    · show ("Депозит накопительный" : String) ∈ defaultShortlist
      decide
    · show ∀ p ∈ defaultShortlist, p ∈ catalog
      decide
  | some f =>
    by_cases h2 : (pyMax (scoreList f)).2 < 2
    · have he : determine_best_product (some f) r = ("Депозит накопительный", defaultShortlist) := by
        simp only [determine_best_product]
        rw [if_pos h2]
      rw [he]
      refine ⟨rfl, by decide, by decide⟩
    · have hlen : (sortDesc (scoreList f)).length = 8 := sortDesc_scoreList_length f
      obtain ⟨x0, x1, x2, x3, t, hsh⟩ :=
        exists_four_of_len (sortDesc (scoreList f)) (by rw [hlen]; omega)
      have hx0 : x0 ∈ scoreList f :=
        (sortDesc_perm _).mem_iff.mp (by rw [hsh]; exact List.mem_cons_self _ _)
      have hx1 : x1 ∈ scoreList f :=
        (sortDesc_perm _).mem_iff.mp
          (by rw [hsh]; exact List.mem_cons_of_mem _ (List.mem_cons_self _ _))
      have hx2 : x2 ∈ scoreList f :=
        (sortDesc_perm _).mem_iff.mp
          (by rw [hsh]
              exact List.mem_cons_of_mem _ (List.mem_cons_of_mem _ (List.mem_cons_self _ _)))
      have hx3 : x3 ∈ scoreList f :=
        (sortDesc_perm _).mem_iff.mp
          (by rw [hsh]
              exact List.mem_cons_of_mem _ (List.mem_cons_of_mem _
                (List.mem_cons_of_mem _ (List.mem_cons_self _ _))))
      have hmax0 : pyMax (scoreList f) = x0 := by
        rw [pyMax_eq_head (scoreList f) (scoreList_ne_nil f) ("", 0), hsh]
        rfl
      simp only [determine_best_product]
      rw [if_neg h2, hsh, hmax0]
      simp only [List.getD_cons_zero, List.getD_cons_succ, List.take_succ_cons,
        List.take_zero, List.map_cons, List.map_nil, List.length_cons, List.length_nil]
      refine ⟨by trivial, ?_, ?_⟩
      · by_cases hc : 1 < t.length + 4 ∧ x0.2 - x1.2 < 3 ∧ r < 0.3
        · rw [if_pos hc]
          simp
        · rw [if_neg hc]
          simp
      · intro q hq
        simp only [List.mem_cons, List.not_mem_nil, or_false] at hq
        rcases hq with rfl | rfl | rfl | rfl
        · exact fst_mem_catalog f x0 hx0
        · exact fst_mem_catalog f x1 hx1
        · exact fst_mem_catalog f x2 hx2
        · exact fst_mem_catalog f x3 hx3

/-- C4: a features record with outflow-to-inflow ratio 2.5 and no other
signal (no keyword hits, no categories, no transaction-count signal, and no
low-balance signal) scores the cash-loan product exactly 15: the ratio tier
contributes 15, while the +8 and +6 bonuses require conditions that fail. -/
theorem claim_C4 (f : ClientFeatures)
    (hr : f.outflows_vs_inflows = 2.5)
    (hcur : f.currency_operations = 0)
    (hon : f.online_services = 0)
    (hcat : f.categories = [])
    (htc : f.total_transactions ≤ 100)
    (hbal : ¬ balLt f.avg_balance 50000) :
    (scoreList f).lookup ("Кредит наличными") = some 15 := by
  rw [show (scoreList f).lookup ("Кредит наличными") = some (loanScore f) from rfl]
  unfold loanScore
  rw [hr]
  rw [if_pos (by norm_num : (2.5 : ℚ) > 2.0)]
  rw [if_neg (fun hcon => absurd hcon.1 (by omega))]
  rw [if_neg (fun hcon => hbal hcon.1)]
  rfl

/-- C7: both deposit catalog entries always carry the identical score, and
for a client with a (non-`NaN`) mean balance `b` that score is the tier
+12 / +8 / +4 plus the additive +5 transaction-count bonus, exactly as the
spec's table states. -/
theorem claim_C7 (f : ClientFeatures) (b : ℚ) (h : f.avg_balance = some b) :
    (scoreList f).lookup ("Депозит сберегательный")
      = (scoreList f).lookup ("Депозит накопительный")
    ∧ (scoreList f).lookup ("Депозит накопительный")
      = some ((if b > 100000 ∧ f.outflows_vs_inflows < 0.8 then 12
               else if b > 50000 ∧ f.outflows_vs_inflows < 1.0 then 8
               else if b > 30000 then 4 else 0)
              + (if f.total_transactions > 80 ∧ f.outflows_vs_inflows < 1.2 then 5 else 0)) := by
  constructor
  · rfl
  · rw [show (scoreList f).lookup ("Депозит накопительный") = some (depositsScore f) from rfl]
    unfold depositsScore
    rw [h]
    rfl

/-- C5: for a client with at least one matching transaction in a table with
an amount column, the ratio feature equals the sum of the absolute values of
the valid negative amounts divided by `max(total inflow, 1)`; it is never
negative; and when the total inflow is 0 it equals the total outflow. -/
theorem claim_C5 (t : Table) (c : String) (f : ClientFeatures)
    (ha : t.hasAmount = true) (h : analyze_client_behavior t c = some f) :
    f.outflows_vs_inflows =
      ((((clientRows t c).filterMap Row.amount).filter (fun a => decide (a < 0))).map
          (fun a => |a|)).sum
        / max ((((clientRows t c).filterMap Row.amount).filter (fun a => decide (0 < a))).sum) 1
    ∧ 0 ≤ f.outflows_vs_inflows
    ∧ ((((clientRows t c).filterMap Row.amount).filter (fun a => decide (0 < a))).sum = 0 →
        f.outflows_vs_inflows =
          ((((clientRows t c).filterMap Row.amount).filter (fun a => decide (a < 0))).map
              (fun a => |a|)).sum) := by
  obtain ⟨h0, htc, hb, hsp, hcat, hcur, hon, hrat⟩ := analyze_some t c f h
  rw [ha] at hrat
  simp only [if_true] at hrat
  have hratio : f.outflows_vs_inflows =
      ((((clientRows t c).filterMap Row.amount).filter (fun a => decide (a < 0))).map
          (fun a => |a|)).sum
        / max ((((clientRows t c).filterMap Row.amount).filter (fun a => decide (0 < a))).sum) 1 := by
    rw [hrat, clientSpending_eq, clientIncome_eq]
  refine ⟨hratio, ?_, ?_⟩
  · rw [hrat]
    apply div_nonneg (clientSpending_nonneg _)
    exact le_trans zero_le_one (le_max_right _ _)
  · intro hzero
    rw [hratio, hzero]
    norm_num

/-- C6: malformed (`NaN`) amounts and balances are excluded: the spending and
income sums range over the valid amounts only, the balance mean averages the
valid balances only (its denominator is the number of valid values, so `NaN`
is not treated as zero), and a client with no balance data (no balance
column) gets mean-balance feature 0. -/
theorem claim_C6 (t : Table) (c : String) (f : ClientFeatures)
    (h : analyze_client_behavior t c = some f) :
    (t.hasBalance = false → f.avg_balance = some 0)
    ∧ (t.hasBalance = true →
        f.avg_balance = specMean ((clientRows t c).filterMap Row.balance))
    ∧ (t.hasAmount = true →
        f.total_spending =
          ((((clientRows t c).filterMap Row.amount).filter (fun a => decide (a < 0))).map
              (fun a => |a|)).sum)
    ∧ clientIncome (clientRows t c)
        = (((clientRows t c).filterMap Row.amount).filter (fun a => decide (0 < a))).sum := by
  obtain ⟨h0, htc, hb, hsp, hcat, hcur, hon, hrat⟩ := analyze_some t c f h
  refine ⟨?_, ?_, ?_, clientIncome_eq _⟩
  · intro hfalse
    rw [hfalse] at hb
    simpa using hb
  · intro htrue
    rw [htrue] at hb
    simp only [if_true] at hb
    rw [hb, skipnaMean_eq_specMean]
  · intro htrue
    rw [htrue] at hsp
    simp only [if_true] at hsp
    rw [hsp, clientSpending_eq]

/-- C8: both keyword hit counts are computed from the single lower-cased
concatenation of the client's description strings, as a presence count over
the fixed keyword list - the count equals the number of keywords occurring in
the blob, so each keyword contributes at most 1 and the counts are bounded by
the list lengths. -/
theorem claim_C8 (t : Table) (c : String) (f : ClientFeatures)
    (hd : t.hasDescription = true) (h : analyze_client_behavior t c = some f) :
    f.currency_operations = specPresenceCount currencyKeywords (descBlobOf (clientRows t c))
    ∧ f.online_services = specPresenceCount onlineKeywords (descBlobOf (clientRows t c))
    ∧ f.currency_operations ≤ currencyKeywords.length
    ∧ f.online_services ≤ onlineKeywords.length := by
  obtain ⟨h0, htc, hb, hsp, hcat, hcur, hon, hrat⟩ := analyze_some t c f h
  rw [hd] at hcur hon
  simp only [if_true] at hcur hon
  refine ⟨?_, ?_, ?_, ?_⟩
  · rw [hcur, kwCount_eq_specPresenceCount]
  · rw [hon, kwCount_eq_specPresenceCount]
  · rw [hcur]
    exact List.countP_le_length _
  · rw [hon]
    exact List.countP_le_length _

/-- C10: the online-service hit count of any aggregated features record is at
most 4 (the fixed list has 4 keywords, each contributing at most 1), so the
credit-card rule's `online_services > 5` bonus branch yields 0 and the
online-services contribution to the credit-card score never exceeds 12. -/
theorem claim_C10 (t : Table) (c : String) (f : ClientFeatures)
    (h : analyze_client_behavior t c = some f) :
    f.online_services ≤ 4
    ∧ (if f.online_services > 5 then (8 : ℤ) else 0) = 0
    ∧ (if f.online_services > 0 then (f.online_services : ℤ) * 3 else 0)
        + (if f.online_services > 5 then (8 : ℤ) else 0) ≤ 12 := by
  obtain ⟨h0, htc, hb, hsp, hcat, hcur, hon, hrat⟩ := analyze_some t c f h
  have hle : f.online_services ≤ 4 := by
    rw [hon]
    by_cases hdesc : t.hasDescription = true
    · rw [hdesc]
      simp only [if_true]
      exact List.countP_le_length _
    · simp only [Bool.not_eq_true] at hdesc
      rw [hdesc]
      simp
  refine ⟨hle, ?_, ?_⟩
  · rw [if_neg (by omega)]
  · rw [if_neg (by omega : ¬ f.online_services > 5)]
    by_cases hpos : f.online_services > 0
    · rw [if_pos hpos]
      omega
    · rw [if_neg hpos]
      omega

/-! ### Evaluation lemmas for the fixtures -/

lemma analyze_tblA : analyze_client_behavior tblA ("c1") = some featA := by
  have hrows : clientRows tblA ("c1") = [rowA] := by decide
  have hb : rowA.balance = some 100 := rfl
  have hc : rowA.category = "такси" := rfl
  have hcur : kwCount currencyKeywords (descBlobOf [rowA]) = 0 := by decide
  have hon : kwCount onlineKeywords (descBlobOf [rowA]) = 2 := by decide
  have hhist : histogram ["такси"] = [("такси", 1)] := by decide
  have hspend : clientSpending [rowA] = 7 := by
    norm_num [clientSpending, isNegAmount, amountAbs, rowA, List.filter]
  have hinc : clientIncome [rowA] = 0 := by
    norm_num [clientIncome, isPosAmount, amountVal, rowA, List.filter]
  have hmean : skipnaMean [some (100 : ℚ)] = some 100 := by
    norm_num [skipnaMean, List.filterMap_cons]
  unfold analyze_client_behavior
  rw [hrows]
  norm_num [tblA, hb, hc, hcur, hon, hhist, hspend, hinc, hmean, featA]

lemma analyze_tblB : analyze_client_behavior tblB ("c2") = some featB := by
  have hrows : clientRows tblB ("c2") = [rowB1, rowB2, rowB3] := by decide
  have hb1 : rowB1.balance = none := rfl
  have hb2 : rowB2.balance = some 10 := rfl
  have hb3 : rowB3.balance = some 20 := rfl
  have hc1 : rowB1.category = "x" := rfl
  have hc2 : rowB2.category = "x" := rfl
  have hc3 : rowB3.category = "x" := rfl
  have hcur : kwCount currencyKeywords (descBlobOf [rowB1, rowB2, rowB3]) = 0 := by decide
  have hon : kwCount onlineKeywords (descBlobOf [rowB1, rowB2, rowB3]) = 0 := by decide
  have hhist : histogram ["x", "x", "x"] = [("x", 3)] := by decide
  have hspend : clientSpending [rowB1, rowB2, rowB3] = 4 := by
    norm_num [clientSpending, isNegAmount, amountAbs, rowB1, rowB2, rowB3, List.filter]
  have hinc : clientIncome [rowB1, rowB2, rowB3] = 2 := by
    norm_num [clientIncome, isPosAmount, amountVal, rowB1, rowB2, rowB3, List.filter]
  have hmean : skipnaMean [(none : Option ℚ), some 10, some 20] = some 15 := by
    norm_num [skipnaMean, List.filterMap_cons]
  unfold analyze_client_behavior
  rw [hrows]
  norm_num [tblB, hb1, hb2, hb3, hc1, hc2, hc3, hcur, hon, hhist, hspend, hinc, hmean, featB]

lemma scoreList_featDeposit :
    scoreList featDeposit =
      [("Карта для путешествий", 0), ("Премиальная карта", 0), ("Кредитная карта", 0),
       ("Обмен валют", 0), ("Депозит накопительный", 8), ("Депозит сберегательный", 8),
       ("Инвестиции", 0), ("Кредит наличными", 0)] := by
  norm_num [scoreList, travelScore, premiumScore, creditScore, currencyScore,
    depositsScore, investmentsScore, loanScore, catKeywordScore, balGt, balLt, featDeposit]

lemma sortDesc_featDeposit :
    sortDesc (scoreList featDeposit) =
      [("Депозит накопительный", 8), ("Депозит сберегательный", 8),
       ("Карта для путешествий", 0), ("Премиальная карта", 0), ("Кредитная карта", 0),
       ("Обмен валют", 0), ("Инвестиции", 0), ("Кредит наличными", 0)] := by
  rw [scoreList_featDeposit]
  decide

/-! ### Witnesses -/

/-- Witness for C1: the empty features record resolves to the default pair. -/
theorem claim_C1_witness :
    ((none : Option ClientFeatures) = none
      ∨ ∃ f, (none : Option ClientFeatures) = some f ∧ ∀ p ∈ scoreList f, p.2 < 2)
    ∧ determine_best_product none 0 =
        ("Депозит накопительный",
         ["Депозит накопительный", "Депозит сберегательный", "Инвестиции", "Кредитная карта"]) :=
  ⟨Or.inl rfl, claim_C1 none 0 (Or.inl rfl)⟩

/-- Witness for C2: `featDeposit` has maximum score 8 and top-2 gap 0, and
with a draw of 0 (< 0.3) the winner is the second-ranked deposit product. -/
theorem claim_C2_witness :
    (∃ p ∈ scoreList featDeposit, 2 ≤ p.2)
    ∧ ((sortDesc (scoreList featDeposit)).getD 0 ("", 0)).2
        - ((sortDesc (scoreList featDeposit)).getD 1 ("", 0)).2 < 3
    ∧ determine_best_product (some featDeposit) 0 =
        ("Депозит сберегательный",
         ["Депозит накопительный", "Депозит сберегательный",
          "Карта для путешествий", "Премиальная карта"]) := by
  have hmax : ∃ p ∈ scoreList featDeposit, 2 ≤ p.2 := by
    rw [scoreList_featDeposit]
    decide
  have hgap : ((sortDesc (scoreList featDeposit)).getD 0 ("", 0)).2
      - ((sortDesc (scoreList featDeposit)).getD 1 ("", 0)).2 < 3 := by
    rw [sortDesc_featDeposit]
    decide
  refine ⟨hmax, hgap, ?_⟩
  rw [claim_C2 featDeposit 0 hmax hgap, sortDesc_featDeposit,
    if_pos (by norm_num : (0 : ℚ) < 0.3)]
  rfl

/-- Witness for C3: the ranking of `featDeposit` is a sorted permutation of
its score list, headed by the argmax, and the shortlist is its first 4. -/
theorem claim_C3_witness :
    (∃ p ∈ scoreList featDeposit, 2 ≤ p.2)
    ∧ ((sortDesc (scoreList featDeposit)).Perm (scoreList featDeposit)
       ∧ (sortDesc (scoreList featDeposit)).Pairwise Rk
       ∧ (sortDesc (scoreList featDeposit)).getD 0 ("", 0) = pyMax (scoreList featDeposit)
       ∧ (determine_best_product (some featDeposit) (1 : ℚ)).2
           = ((sortDesc (scoreList featDeposit)).take 4).map Prod.fst) := by
  have hmax : ∃ p ∈ scoreList featDeposit, 2 ≤ p.2 := by
    rw [scoreList_featDeposit]
    decide
  exact ⟨hmax, claim_C3 featDeposit 1 hmax⟩

/-- Witness for C4: `featLoan` (ratio 2.5, 50 transactions, balance 60000)
scores the cash loan exactly 15. -/
theorem claim_C4_witness :
    featLoan.outflows_vs_inflows = 2.5
    ∧ featLoan.total_transactions ≤ 100
    ∧ ¬ balLt featLoan.avg_balance 50000
    ∧ (scoreList featLoan).lookup ("Кредит наличными") = some 15 := by
  have htc : featLoan.total_transactions ≤ 100 := by decide
  have hbal : ¬ balLt featLoan.avg_balance 50000 := by
    show ¬ balLt (some 60000) 50000
    norm_num [balLt]
  exact ⟨rfl, htc, hbal, claim_C4 featLoan rfl rfl rfl rfl htc hbal⟩

/-- Witness for C5: client `c1` of `tblA` has one outflow of 7 and zero
inflow, so the floor makes the ratio equal the total outflow, 7. -/
theorem claim_C5_witness :
    tblA.hasAmount = true
    ∧ analyze_client_behavior tblA ("c1") = some featA
    ∧ 0 ≤ featA.outflows_vs_inflows
    ∧ featA.outflows_vs_inflows =
        ((((clientRows tblA ("c1")).filterMap Row.amount).filter (fun a => decide (a < 0))).map
            (fun a => |a|)).sum := by
  have h := claim_C5 tblA ("c1") featA rfl analyze_tblA
  refine ⟨rfl, analyze_tblA, h.2.1, h.2.2 ?_⟩
  have hrows : clientRows tblA ("c1") = [rowA] := by decide
  rw [hrows]
  norm_num [rowA, List.filterMap_cons, List.filter]

/-- Witness for C6: in `tblB` the `NaN` balance and `NaN` amount of client
`c2` are skipped: the mean balance is 15 = (10+20)/2 and the sums see only
the valid amounts. -/
theorem claim_C6_witness :
    analyze_client_behavior tblB ("c2") = some featB
    ∧ ((tblB.hasBalance = false → featB.avg_balance = some 0)
       ∧ (tblB.hasBalance = true →
           featB.avg_balance = specMean ((clientRows tblB ("c2")).filterMap Row.balance))
       ∧ (tblB.hasAmount = true →
           featB.total_spending =
             ((((clientRows tblB ("c2")).filterMap Row.amount).filter
                 (fun a => decide (a < 0))).map (fun a => |a|)).sum)
       ∧ clientIncome (clientRows tblB ("c2"))
           = (((clientRows tblB ("c2")).filterMap Row.amount).filter
               (fun a => decide (0 < a))).sum) :=
  ⟨analyze_tblB, claim_C6 tblB ("c2") featB analyze_tblB⟩

/-- Witness for C7: `featDeposit` (balance 60000, ratio 0) puts both deposit
entries at the identical score 8 = middle tier 8 + bonus 0. -/
theorem claim_C7_witness :
    featDeposit.avg_balance = some 60000
    ∧ (scoreList featDeposit).lookup ("Депозит сберегательный")
        = (scoreList featDeposit).lookup ("Депозит накопительный")
    ∧ (scoreList featDeposit).lookup ("Депозит накопительный") = some 8 := by
  have h := claim_C7 featDeposit 60000 rfl
  refine ⟨rfl, h.1, ?_⟩
  rw [h.2]
  norm_num [featDeposit]

/-- Witness for C8: for client `c1` of `tblA` the blob is
"online подписка"; 0 of the 6 currency keywords and 2 of the 4 online
keywords occur in it. -/
theorem claim_C8_witness :
    tblA.hasDescription = true
    ∧ analyze_client_behavior tblA ("c1") = some featA
    ∧ featA.currency_operations
        = specPresenceCount currencyKeywords (descBlobOf (clientRows tblA ("c1")))
    ∧ featA.online_services
        = specPresenceCount onlineKeywords (descBlobOf (clientRows tblA ("c1")))
    ∧ featA.currency_operations ≤ currencyKeywords.length
    ∧ featA.online_services ≤ onlineKeywords.length := by
  have h := claim_C8 tblA ("c1") featA rfl analyze_tblA
  exact ⟨rfl, analyze_tblA, h.1, h.2.1, h.2.2.1, h.2.2.2⟩

/-- Witness for C10: client `c1` of `tblA` has online hit count 2 ≤ 4, and
its credit-card online contribution is 6 ≤ 12 with a zero `> 5` bonus. -/
theorem claim_C10_witness :
    analyze_client_behavior tblA ("c1") = some featA
    ∧ featA.online_services ≤ 4
    ∧ (if featA.online_services > 5 then (8 : ℤ) else 0) = 0
    ∧ (if featA.online_services > 0 then (featA.online_services : ℤ) * 3 else 0)
        + (if featA.online_services > 5 then (8 : ℤ) else 0) ≤ 12 := by
  have h := claim_C10 tblA ("c1") featA analyze_tblA
  exact ⟨analyze_tblA, h.1, h.2.1, h.2.2⟩

end BankAnalyzer
